import Mathlib

/-!
Verification development for the Browns Shoes scraper.

The repository contains near-duplicate variants of the same flow:
`src/src/main.js` (called the `main` variant below) and the variant
embedded in `src/unnamed/part_000` after its README (called `v2`).
Definitions below are shallow embeddings of the JavaScript source:
JS strings are `String`, JS numbers that carry prices are `ℚ`
(the source only compares and never does float-specific arithmetic
on them), nullable values are `Option`, and the mutable run state of
the dedup engine is threaded explicitly.  JS truthiness on strings
(`""` is falsy) is modelled by `jsTruthyS`.
-/

/-- Left-to-right list search: does `sub` occur at the head of `s`?
Models the prefix test underlying `String.prototype.indexOf`. -/
def startsWithL : List Char → List Char → Bool
  | _, [] => true
  | [], _ :: _ => false
  | a :: as, b :: bs => a == b && startsWithL as bs

/-- Index of the first occurrence of `sub` in `s`, counting from `pos`;
models JS `indexOf` (which returns -1, modelled as `none`). -/
def idxAux : List Char → List Char → Nat → Option Nat
  | [], sub, pos => if startsWithL [] sub then some pos else none
  | c :: rest, sub, pos =>
      if startsWithL (c :: rest) sub then some pos
      else idxAux rest sub (pos + 1)

/-- JS `s.indexOf(sub)`. -/
def jsIndexOf (s sub : List Char) : Option Nat := idxAux s sub 0

/-- JS `s.indexOf(sub, i)`: search starting at index `i`. -/
def jsIndexOfFrom (s sub : List Char) (i : Nat) : Option Nat :=
  (idxAux (s.drop i) sub 0).map (fun k => k + i)

/-- JS `s.includes(sub)` on character lists. -/
def containsSub (s sub : List Char) : Bool := (jsIndexOf s sub).isSome

/-- JS `s.includes(sub)` on strings. -/
def containsStr (s sub : String) : Bool := containsSub s.data sub.data

/-- JS `s.toLowerCase()` (ASCII case folding, which is all the source uses). -/
def lowerStr (s : String) : String := String.mk (s.data.map Char.toLower)

/-- Case-insensitive substring test, the pattern
`String(a).toLowerCase().includes(b.toLowerCase())` from the source. -/
def containsCI (s sub : String) : Bool := containsStr (lowerStr s) (lowerStr sub)

/-- JS truthiness of a nullable string: `null`/`undefined` and `""` are falsy. -/
def jsTruthyS : Option String → Bool
  | none => false
  | some s => !(s == "")

/-- JS `a || b` on nullable strings. -/
def jsOr (a b : Option String) : Option String := if jsTruthyS a then a else b

/-- JS `a || null` on nullable strings. -/
def jsOrNull (a : Option String) : Option String := if jsTruthyS a then a else none

/-- Accumulates the value of a digit string, as JS `Number` does for
integer parts. -/
def digitsToNat (cs : List Char) : Nat :=
  cs.foldl (fun acc c => acc * 10 + (c.toNat - 48)) 0

/-- Splits a character list at every `'.'`. -/
def splitOnDot (cs : List Char) : List (List Char) :=
  cs.foldr
    (fun c acc =>
      if c == '.' then [] :: acc
      else
        match acc with
        | g :: gs => (c :: g) :: gs
        | [] => [[c]])
    [[]]

/-- Embedding of `toNumber` from the source: `null`/`undefined`/`''`
give `null`; otherwise every character that is not a digit or a dot is
stripped and the rest is parsed as a JS `Number` (`""` parses to `0`,
two or more dots give `NaN`, modelled as `none`).  JS floats are
modelled as exact rationals; the source only compares these values. -/
def toNumber (v : Option String) : Option ℚ :=
  match v with
  | none => none
  | some s =>
      if s == "" then none
      else
        let stripped := s.data.filter (fun c => c.isDigit || c == '.')
        match splitOnDot stripped with
        | [ds] => some ((digitsToNat ds : ℚ))
        | [as, bs] =>
            if as.isEmpty && bs.isEmpty then none
            else some ((digitsToNat as : ℚ) + (digitsToNat bs : ℚ) / (10 : ℚ) ^ bs.length)
        | _ => none

/-- Site origin constant from the source. -/
def BASE_URL : String := "https://www.brownsshoes.com"

/-- Check for an absolute http(s) URL. -/
def hasHttpScheme (s : String) : Bool :=
  startsWithL s.data "http://".data || startsWithL s.data "https://".data

/-- Embedding of `toAbs` (`new URL(href, BASE_URL).href`).  The WHATWG
URL parser is a platform primitive; it is modelled for the inputs the
source feeds it: absolute http(s) URLs pass through unchanged and other
strings are resolved against the site origin.  Parse failures of the
platform parser (which yield `null` in the source) are not reachable
for these inputs. -/
def toAbs (href : String) : Option String :=
  if hasHttpScheme href then some href
  else if startsWithL href.data "/".data then some (BASE_URL ++ href)
  else if href == "" then some (BASE_URL ++ "/")
  else some (BASE_URL ++ "/" ++ href)

/-- Characters of `cs` before the first occurrence of `c`. -/
def stripFromChar (c : Char) (cs : List Char) : List Char :=
  cs.takeWhile (fun x => !(x == c))

/-- The path-and-after part of an absolute URL: everything from the
first `'/'` after the `"://"` separator. -/
def pathAndAfter (abs : List Char) : List Char :=
  match jsIndexOf abs "://".data with
  | some i => (abs.drop (i + 3)).dropWhile (fun c => !(c == '/'))
  | none => abs

/-- The `pathname` of an absolute URL (path before query and fragment). -/
def pathnameOf (abs : List Char) : List Char :=
  stripFromChar '#' (stripFromChar '?' (pathAndAfter abs))

/-- Embedding of `normalizeProductUrl` from the `v2` variant: falsy
input gives `null`; the URL is resolved against the site origin and,
when its pathname contains `"/product/"`, query and fragment are
stripped (`url.search = ''; url.hash = ''`). -/
def normalizeProductUrl (href : String) : Option String :=
  if href == "" then none
  else
    match toAbs href with
    | none => none
    | some abs =>
        if containsSub (pathnameOf abs.data) "/product/".data then
          some (String.mk (stripFromChar '#' (stripFromChar '?' abs.data)))
        else some abs

/-- Embedding of `uniqStrings`: `[...new Set(values.filter(Boolean))]`,
i.e. drop falsy entries and deduplicate keeping first occurrences. -/
def uniqStrings (values : List String) : List String :=
  (values.filter (fun v => !(v == ""))).foldl
    (fun acc v => if acc.contains v then acc else acc ++ [v]) []

/-- A raw candidate record as produced by a channel extractor, before
`normalizeItem`.  Fields that no claim consults (`features`,
`materials`, `attributes`, `categories`, `gender`, `colorName`) are
pass-through arrays/strings in the source and are omitted here. -/
structure RawItem where
  title : Option String := none
  brand : Option String := none
  price : Option ℚ := none
  originalPrice : Option ℚ := none
  currency : Option String := none
  url : Option String := none
  image : Option String := none
  images : Option (List (Option String)) := none
  colors : Option (List String) := none
  sizes : Option (List String) := none
  inStock : Option Bool := none
  productId : Option String := none
  description : Option String := none
deriving DecidableEq, Repr

/-- A normalized product record, the shape produced by `normalizeItem`. -/
structure Item where
  title : Option String
  brand : Option String
  price : Option ℚ
  originalPrice : Option ℚ
  currency : String
  url : Option String
  image : Option String
  images : List (Option String)
  colors : List String
  sizes : List String
  inStock : Bool
  productId : Option String
  description : Option String
deriving DecidableEq, Repr

/-- Run configuration: the item ceiling and the filter inputs consumed
by `passesFilters`, plus the `scrapeDetails` flag used by `shapeItem`
in the `v2` variant. -/
structure Config where
  maxItems : Nat
  brand : String := ""
  color : String := ""
  size : String := ""
  minPrice : Option ℚ := none
  maxPrice : Option ℚ := none
  scrapeDetails : Bool := false
deriving Repr

/-- The mutable dedup state of a run: `itemsSaved`, `seenKeys` and
`savedProductIds` from the source. -/
structure SaveState where
  itemsSaved : Nat
  seenKeys : Finset String
  savedProductIds : Finset String
deriving DecidableEq

/-- Embedding of `normalizeItem` from `src/src/main.js`: fields are
defaulted with `|| null`, `?? true` and `Array.isArray` checks.  The
`null`-input guard of the source is unrepresentable for a typed
`RawItem`. -/
def normalizeItem (a : RawItem) : Item :=
  { title := jsOrNull a.title
    brand := jsOrNull a.brand
    price := a.price
    originalPrice := a.originalPrice
    currency := match a.currency with
      | some c => if c == "" then "CAD" else c
      | none => "CAD"
    url := jsOrNull a.url
    image := jsOrNull a.image
    images := a.images.getD []
    colors := a.colors.getD []
    sizes := a.sizes.getD []
    inStock := a.inStock.getD true
    productId := jsOrNull a.productId
    description := jsOrNull a.description }

/-- Embedding of `normalizeItem` from the `v2` variant in
`src/unnamed/part_000`; it differs from the `main` variant by
canonicalizing the URL: `item.url ? normalizeProductUrl(item.url) : null`. -/
def normalizeItem_v2 (a : RawItem) : Item :=
  { normalizeItem a with
    url := match a.url with
      | some u => if u == "" then none else normalizeProductUrl u
      | none => none }

/-- Embedding of `shapeItem` from the `v2` variant: in detail mode the
normalized record is kept whole; in listing mode the record is
projected onto the listing fields (of the fields modelled here that
drops `description`). -/
def shapeItem (scrapeDetails : Bool) (a : RawItem) : Item :=
  let n := normalizeItem_v2 a
  if scrapeDetails then n else { n with description := none }

/-- Brand clause of `passesFilters`:
`if (brand && item.brand && !String(item.brand).toLowerCase().includes(brand.toLowerCase())) return false`. -/
def brandRejects (cfg : Config) (item : Item) : Bool :=
  match item.brand with
  | some b => !(cfg.brand == "") && !(b == "") && !(containsCI b cfg.brand)
  | none => false

/-- Min-price clause of `passesFilters`:
`if (minPrice !== null && item.price !== null && item.price < minPrice) return false`. -/
def minPriceRejects (cfg : Config) (item : Item) : Bool :=
  match cfg.minPrice, item.price with
  | some mn, some p => decide (p < mn)
  | _, _ => false

/-- Max-price clause of `passesFilters`:
`if (maxPrice !== null && item.price !== null && item.price > maxPrice) return false`. -/
def maxPriceRejects (cfg : Config) (item : Item) : Bool :=
  match cfg.maxPrice, item.price with
  | some mx, some p => decide (mx < p)
  | _, _ => false

/-- Color clause of `passesFilters`: reject when a color filter is set,
the extracted color set is non-empty and no entry matches
case-insensitively. -/
def colorRejects (cfg : Config) (item : Item) : Bool :=
  !(cfg.color == "") &&
    !(item.colors.any (fun entry => containsCI entry cfg.color)) &&
    !item.colors.isEmpty

/-- Size clause of `passesFilters`, symmetric to the color clause. -/
def sizeRejects (cfg : Config) (item : Item) : Bool :=
  !(cfg.size == "") &&
    !(item.sizes.any (fun entry => containsCI entry cfg.size)) &&
    !item.sizes.isEmpty

/-- Embedding of `passesFilters` (identical in both variants).  The
`if (!item) return false` guard of the source is unrepresentable for a
typed `Item`. -/
def passesFilters (cfg : Config) (item : Item) : Bool :=
  if brandRejects cfg item then false
  else if minPriceRejects cfg item then false
  else if maxPriceRejects cfg item then false
  else if colorRejects cfg item then false
  else if sizeRejects cfg item then false
  else true

/-- Set membership test used for `seenKeys.has` / `savedProductIds.has`. -/
def inSet (s : Finset String) : Option String → Bool
  | some k => decide (k ∈ s)
  | none => false

/-- Insertion used for `seenKeys.add` / `savedProductIds.add`. -/
def insertOpt (s : Finset String) : Option String → Finset String
  | some k => insert k s
  | none => s

/-- The `continue` guards of the `saveItems` loop in `src/src/main.js`,
in source order: no truthy identity key (`const key = item.productId ||
item.url; if (!key) continue`), productId already saved, productId-less
record with already-seen url, or filter failure.  Short-circuit `||`
preserves the source's evaluation order. -/
def rejects_main (cfg : Config) (seen pids : Finset String) (item : Item) : Bool :=
  !jsTruthyS (jsOr item.productId item.url) ||
    (jsTruthyS item.productId && inSet pids item.productId) ||
    (!jsTruthyS item.productId && jsTruthyS item.url && inSet seen item.url) ||
    !passesFilters cfg item

/-- Loop body of `saveItems` from `src/src/main.js`: walks the batch,
skipping records per `rejects_main`; accepted records are appended to
`acc`, their keys recorded (`if (item.productId) savedProductIds.add`,
`if (item.url) seenKeys.add`), and the loop breaks as soon as
`itemsSaved + filtered.length >= MAX_ITEMS` (`base` is the `itemsSaved`
value at entry, which the source does not change until after the loop). -/
def saveGo_main (cfg : Config) (base : Nat) :
    List RawItem → List Item → Finset String → Finset String →
    List Item × Finset String × Finset String
  | [], acc, seen, pids => (acc, seen, pids)
  | raw :: rest, acc, seen, pids =>
      let item := normalizeItem raw
      if rejects_main cfg seen pids item then
        saveGo_main cfg base rest acc seen pids
      else
        let acc' := acc ++ [item]
        let pids' := if jsTruthyS item.productId then insertOpt pids item.productId else pids
        let seen' := if jsTruthyS item.url then insertOpt seen item.url else seen
        if cfg.maxItems ≤ base + acc'.length then (acc', seen', pids')
        else saveGo_main cfg base rest acc' seen' pids'

/-- Embedding of `saveItems` from `src/src/main.js`: early return when
the ceiling is already reached, otherwise run the batch loop and
persist the surviving sub-batch (`Actor.pushData(filtered)`), adding
its length to `itemsSaved`.  Returns the persisted sub-batch and the
new run state. -/
def saveItems_main (cfg : Config) (s : SaveState) (items : List RawItem) :
    List Item × SaveState :=
  if cfg.maxItems ≤ s.itemsSaved then ([], s)
  else
    let r := saveGo_main cfg s.itemsSaved items [] s.seenKeys s.savedProductIds
    (r.1, ⟨s.itemsSaved + r.1.length, r.2.1, r.2.2⟩)

/-- The `continue` guards of the `saveItems` loop in the `v2` variant,
in source order: `if (!item.url || !item.title) continue`,
`if (seenKeys.has(item.url)) continue`, filter failure. -/
def rejects_v2 (cfg : Config) (seen : Finset String) (item : Item) : Bool :=
  (!jsTruthyS item.url || !jsTruthyS item.title) ||
    inSet seen item.url ||
    !passesFilters cfg item

/-- Loop body of `saveItems` from the `v2` variant in
`src/unnamed/part_000`: skips records per `rejects_v2` (dedup is by url
only), then records the url (always) and the productId (when truthy),
with the same ceiling break as the `main` variant. -/
def saveGo_v2 (cfg : Config) (base : Nat) :
    List RawItem → List Item → Finset String → Finset String →
    List Item × Finset String × Finset String
  | [], acc, seen, pids => (acc, seen, pids)
  | raw :: rest, acc, seen, pids =>
      let item := shapeItem cfg.scrapeDetails raw
      if rejects_v2 cfg seen item then
        saveGo_v2 cfg base rest acc seen pids
      else
        let acc' := acc ++ [item]
        let seen' := insertOpt seen item.url
        let pids' := if jsTruthyS item.productId then insertOpt pids item.productId else pids
        if cfg.maxItems ≤ base + acc'.length then (acc', seen', pids')
        else saveGo_v2 cfg base rest acc' seen' pids'

/-- Embedding of `saveItems` from the `v2` variant (the `stopCrawler`
call after persisting only aborts the scheduler and does not touch the
dedup state). -/
def saveItems_v2 (cfg : Config) (s : SaveState) (items : List RawItem) :
    List Item × SaveState :=
  if cfg.maxItems ≤ s.itemsSaved then ([], s)
  else
    let r := saveGo_v2 cfg s.itemsSaved items [] s.seenKeys s.savedProductIds
    (r.1, ⟨s.itemsSaved + r.1.length, r.2.1, r.2.2⟩)

/-- A whole run of the `main` save routine over a sequence of batches,
collecting every persisted record in order. -/
def runSave_main (cfg : Config) : SaveState → List (List RawItem) → List Item × SaveState
  | s, [] => ([], s)
  | s, b :: bs =>
      let r := saveItems_main cfg s b
      let rest := runSave_main cfg r.2 bs
      (r.1 ++ rest.1, rest.2)

/-- A whole run of the `v2` save routine over a sequence of batches. -/
def runSave_v2 (cfg : Config) : SaveState → List (List RawItem) → List Item × SaveState
  | s, [] => ([], s)
  | s, b :: bs =>
      let r := saveItems_v2 cfg s b
      let rest := runSave_v2 cfg r.2 bs
      (r.1 ++ rest.1, rest.2)

/-- One value entry of a variation attribute in an API search hit.
JS `entry.name` can be a string or an object with an `en` field; the
two cases are modelled by `name` and `nameEn`. -/
structure VariationValue where
  name : Option String := none
  nameEn : Option String := none
  value : Option String := none
deriving Repr

/-- A variation attribute (`c_variationAttributes` entry) of a hit. -/
structure VariationAttribute where
  id : Option String := none
  values : List VariationValue := []
deriving Repr

/-- One image reference inside an image group. -/
structure ImageRef where
  link : Option String := none
  src : Option String := none
deriving Repr

/-- One image group of a hit. -/
structure ImageGroup where
  images : List ImageRef := []
deriving Repr

/-- The `representedProduct` sub-object of a hit. -/
structure RepresentedProduct where
  id : Option String := none
  qtyInStock : Option ℚ := none
  description : Option String := none
deriving Repr

/-- An API search hit, with the fields `mapSearchHit` reads.  Numeric
price fields arrive as JSON values that the source routes through
`toNumber`; they are modelled in their string form.  JS `hit.brand` can
be a string or an object with a `name` field (`brandStr` / `brandName`);
`c_variationAttributes || hit.variationAttributes` is one field. -/
structure Hit where
  productName : Option String := none
  name : Option String := none
  cBrand : Option String := none
  brandName : Option String := none
  brandStr : Option String := none
  price : Option String := none
  pricePerUnit : Option String := none
  priceMin : Option String := none
  pricePerUnitMin : Option String := none
  priceMax : Option String := none
  pricePerUnitMax : Option String := none
  currency : Option String := none
  cProductUrl : Option String := none
  productUrl : Option String := none
  url : Option String := none
  link : Option String := none
  imageLink : Option String := none
  imageSrc : Option String := none
  imageGroups : List ImageGroup := []
  orderable : Option Bool := none
  productId : Option String := none
  variationAttributes : List VariationAttribute := []
  representedProduct : Option RepresentedProduct := none
deriving Repr

/-- Strings pushed for one variation value entry, with the truthiness
guards of the source (`entry?.name && typeof === 'string'`, etc.). -/
def variationEntryStrings (v : VariationValue) : List String :=
  (match v.name with | some n => if n == "" then [] else [n] | none => []) ++
    (match v.nameEn with | some n => if n == "" then [] else [n] | none => []) ++
    (match v.value with | some s => if s == "" then [] else [s] | none => [])

/-- Embedding of `mapVariationValues`: collect value names of the
attributes whose lowercased id is in `ids`, then `uniqStrings`. -/
def mapVariationValues (attrs : List VariationAttribute) (ids : List String) : List String :=
  uniqStrings
    (attrs.foldl
      (fun acc attr =>
        match attr.id with
        | none => acc
        | some i =>
            if i == "" then acc
            else if !(ids.contains (lowerStr i)) then acc
            else acc ++ attr.values.foldl (fun a v => a ++ variationEntryStrings v) [])
      [])

/-- The `price` computed by `mapSearchHit`:
`toNumber(hit.price ?? hit.pricePerUnit ?? hit.priceMin ?? hit.pricePerUnitMin)`
(`??` is nullish coalescing, `Option.orElse`). -/
def searchHitPrice (hit : Hit) : Option ℚ :=
  toNumber (hit.price <|> hit.pricePerUnit <|> hit.priceMin <|> hit.pricePerUnitMin)

/-- The `priceMax` computed by `mapSearchHit`. -/
def searchHitPriceMax (hit : Hit) : Option ℚ :=
  toNumber (hit.priceMax <|> hit.pricePerUnitMax)

/-- The `originalPrice` computed by `mapSearchHit`:
`priceMax && price && priceMax > price ? priceMax : null` — number
truthiness makes `0` falsy, and `toNumber` never yields `NaN`. -/
def searchHitOriginalPrice (hit : Hit) : Option ℚ :=
  match searchHitPriceMax hit, searchHitPrice hit with
  | some pm, some p => if pm ≠ 0 ∧ p ≠ 0 ∧ p < pm then some pm else none
  | _, _ => none

/-- Flattened image links of a hit, the source expression
`hit.imageGroups.flatMap(g => g?.images || []).map(img => img?.link || img?.src).filter(Boolean)`. -/
def searchHitImageLinks (hit : Hit) : List String :=
  ((hit.imageGroups.foldl (fun acc g => acc ++ g.images) []).map
      (fun img => jsOr img.link img.src)).filterMap
    (fun o => match o with
      | some s => if s == "" then none else some s
      | none => none)

/-- Embedding of `mapSearchHit` from `src/src/main.js` (the claims
consult its shared fields; the enrichment arrays `features`,
`attributes`, `categories`, `gender`, `materials` and `colorName` are
pass-throughs the claims never read and are omitted like in `RawItem`). -/
def mapSearchHit (hit : Hit) : RawItem :=
  let image :=
    jsOr hit.imageLink
      (jsOr hit.imageSrc
        (jsOr ((hit.imageGroups.head?.bind (fun g => g.images.head?)).bind ImageRef.link)
          ((hit.imageGroups.head?.bind (fun g => g.images.head?)).bind ImageRef.src)))
  let productUrl := jsOr hit.cProductUrl (jsOr hit.productUrl (jsOr hit.url hit.link))
  let represented := hit.representedProduct
  { title := jsOrNull (jsOr hit.productName hit.name)
    brand := jsOrNull (jsOr hit.cBrand (jsOr hit.brandName hit.brandStr))
    price := searchHitPrice hit
    originalPrice := searchHitOriginalPrice hit
    currency := some (match jsOr hit.currency (some "CAD") with
      | some c => c
      | none => "CAD")
    url := match productUrl with
      | some u => if u == "" then none else toAbs u
      | none => none
    image := match image with
      | some s => if s == "" then none else toAbs s
      | none => none
    images := some ((uniqStrings (searchHitImageLinks hit)).map toAbs)
    colors := some (mapVariationValues hit.variationAttributes ["color", "colour"])
    sizes := some (mapVariationValues hit.variationAttributes ["size"])
    inStock := some (match hit.orderable with
      | some b => b
      | none =>
          match represented.bind RepresentedProduct.qtyInStock with
          | some q => decide (0 < q)
          | none => false)
    productId := jsOrNull (jsOr hit.productId (represented.bind RepresentedProduct.id))
    description := jsOrNull (represented.bind RepresentedProduct.description) }

/-- The first offer of a JSON-LD product node. -/
structure JsonLdOffer where
  price : Option String := none
  priceCurrency : Option String := none
  availability : Option String := none
deriving Repr

/-- A JSON-LD `Product` node, with the fields the extractor reads.
`product.image` can be a string or an array (`imageStr` / `imageList`);
`product.brand` can be a string or an object (`brandStr` / `brandName`). -/
structure JsonLdProduct where
  name : Option String := none
  brandName : Option String := none
  brandStr : Option String := none
  offers : Option JsonLdOffer := none
  url : Option String := none
  imageStr : Option String := none
  imageList : Option (List String) := none
  sku : Option String := none
  description : Option String := none
deriving Repr

/-- Embedding of the mapping step of `extractJsonLdProducts`: one
JSON-LD product node becomes a raw candidate.  Note `originalPrice` is
the literal `null`. -/
def jsonLdToItem (p : JsonLdProduct) : RawItem :=
  { title := jsOrNull p.name
    brand := jsOrNull (jsOr p.brandName p.brandStr)
    price := toNumber (p.offers.bind JsonLdOffer.price)
    originalPrice := none
    currency := some (match jsOr (p.offers.bind JsonLdOffer.priceCurrency) (some "CAD") with
      | some c => c
      | none => "CAD")
    url := match p.url with
      | some u => if u == "" then none else toAbs u
      | none => none
    image := match p.imageList with
      | some l =>
          match l.head? with
          | some i => toAbs i
          | none => none
      | none => p.imageStr.bind toAbs
    images := match p.imageList with
      | some l => some (l.map toAbs)
      | none => some []
    colors := some []
    sizes := some []
    inStock := some (containsStr
      (lowerStr ((p.offers.bind JsonLdOffer.availability).getD "")) "instock")
    productId := jsOrNull p.sku
    description := jsOrNull p.description }

/-- A parsed `data-segment` attribute payload from the `v2` HTML
channel (`src/unnamed/part_000`, the `$('[data-segment]')` scan).
Values arrive as JSON and are routed through `toNumber`, so the price
fields are modelled as strings. -/
structure SegmentData where
  url : Option String := none
  imageUrl : Option String := none
  variant : Option String := none
  size : Option String := none
  name : Option String := none
  brand : Option String := none
  price : Option String := none
  retailPrice : Option String := none
  currency : Option String := none
  productId : Option String := none
  stylenumber : Option String := none
  sku : Option String := none
deriving Repr

/-- Embedding of the record built by the `v2` data-segment scan
(part_000 lines 898-919): note `originalPrice` is
`toNumber(data.retail_price)` with no comparison against `price`. -/
def segmentToItem (d : SegmentData) : RawItem :=
  let url := match d.url with
    | some u => if u == "" then none else normalizeProductUrl u
    | none => none
  let image := match d.imageUrl with
    | some i => if i == "" then none else toAbs i
    | none => none
  { title := jsOrNull d.name
    brand := jsOrNull d.brand
    price := toNumber d.price
    originalPrice := toNumber d.retailPrice
    currency := some (match jsOr d.currency (some "CAD") with
      | some c => c
      | none => "CAD")
    url := url
    image := image
    images := match image with
      | some i => some [some i]
      | none => some []
    colors := some (match d.variant with
      | some v => if v == "" then [String.mk v.data] else [v]
      | none => [])
    sizes := some (match d.size with
      | some v => if v == "" then [String.mk v.data] else [v]
      | none => [])
    inStock := some true
    productId := jsOrNull (jsOr d.productId (jsOr d.stylenumber d.sku))
    description := none }

/-- One step fuel-indexed embedding of the API pagination loop shared
by both variants (main.js lines 829-851, part_000 lines 1468-1493).
`rem` encodes the page ceiling: the source guard is
`pageNum < MAX_PAGES` and `rem = MAX_PAGES - pageNum`, decremented as
`pageNum` is incremented.  `ceiling pageNum` is an oracle for the
progress-ceiling half of the `while` condition (it depends on item
counts accumulated from network data); `hasHits o` is an oracle for
whether the fetch at offset `o` returns a non-empty hit list.  The
returned list is the offsets at which the loop issues fetches, in
order; a fetch returning no hits is still issued before the loop
breaks. -/
def apiPagingGo (hasHits : Nat → Bool) (ceiling : Nat → Bool) (total : Option Nat)
    (limit : Nat) : Nat → Nat → Nat → List Nat
  | _, _, 0 => []
  | offset, pageNum, rem + 1 =>
      if ceiling pageNum then []
      else
        match total with
        | some t =>
            if t ≤ offset + limit then []
            else
              (offset + limit) ::
                (if hasHits (offset + limit) then
                  apiPagingGo hasHits ceiling total limit (offset + limit) (pageNum + 1) rem
                else [])
        | none =>
            (offset + limit) ::
              (if hasHits (offset + limit) then
                apiPagingGo hasHits ceiling total limit (offset + limit) (pageNum + 1) rem
              else [])

/-- All offsets fetched for one listing task whose first API fetch at
`startOffset` succeeded with a non-empty hit list: the initial fetch
plus the pagination loop, entered with `pageNum = startPage` and
`rem = maxPages - startPage`. -/
def apiFetchOffsets (hasHits : Nat → Bool) (ceiling : Nat → Bool) (total : Option Nat)
    (limit maxPages startOffset startPage : Nat) : List Nat :=
  startOffset ::
    apiPagingGo hasHits ceiling total limit startOffset startPage (maxPages - startPage)

/-- Embedding of `extractJsonObject`'s scanning loop: given the
characters from the start index on, returns the number of characters
up to and including the brace that closes the first balanced object,
or `none` when no balanced object completes before end of input.
`depth` is a JS number, so it is an `Int` (it can go negative). -/
def scanBalanced : List Char → Int → Bool → Bool → Option Nat
  | [], _, _, _ => none
  | c :: rest, depth, inString, escaped =>
      if inString then
        if escaped then (scanBalanced rest depth true false).map (· + 1)
        else if c == '\\' then (scanBalanced rest depth true true).map (· + 1)
        else if c == '\"' then (scanBalanced rest depth false false).map (· + 1)
        else (scanBalanced rest depth true false).map (· + 1)
      else if c == '\"' then (scanBalanced rest depth true false).map (· + 1)
      else if c == '{' then (scanBalanced rest (depth + 1) false false).map (· + 1)
      else if c == '}' then
        if depth - 1 = 0 then some 1
        else (scanBalanced rest (depth - 1) false false).map (· + 1)
      else (scanBalanced rest depth false false).map (· + 1)

/-- Embedding of `extractJsonObject`: the balanced `{...}` slice of
`text` starting at `startIndex`, or `null`. -/
def extractJsonObject (text : List Char) (startIndex : Nat) : Option (List Char) :=
  (scanBalanced (text.drop startIndex) 0 false false).map
    (fun n => (text.drop startIndex).take n)

/-- Embedding of `extractJsonAfterToken` up to the raw extracted slice:
find the token, then the first `':'` after it (falling back to `'='`),
then the first `'{'` after that pivot, and scan the balanced object.
The final `JSON.parse` of the source is outside this model; the claim
concerns the extracted slice. -/
def extractJsonAfterTokenRaw (html token : List Char) : Option (List Char) :=
  match jsIndexOf html token with
  | none => none
  | some tokenIndex =>
      let separatorIndex := jsIndexOfFrom html [':'] (tokenIndex + token.length)
      let assignIndex := jsIndexOfFrom html ['='] (tokenIndex + token.length)
      let pivot := match separatorIndex with
        | some i => some i
        | none => assignIndex
      match pivot with
      | none => none
      | some pv =>
          match jsIndexOfFrom html ['{'] pv with
          | none => none
          | some startIndex => extractJsonObject html startIndex

/-- The proxy circuit state of a run (`proxyState` in the source). -/
structure ProxyState where
  disabled : Bool
  reason : Option String
  authFailed : Bool
deriving DecidableEq, Repr

/-- Embedding of `disableProxy`: a no-op once `disabled` is set
(first failure wins), otherwise latch `disabled` and record the reason
(`reason || 'Proxy authentication failed'`). -/
def disableProxy (reason : Option String) (s : ProxyState) : ProxyState :=
  if s.disabled then s
  else
    { s with
      disabled := true
      reason := some (match reason with
        | some r => if r == "" then "Proxy authentication failed" else r
        | none => "Proxy authentication failed") }

/-- Embedding of `resolveProxyUrl`: without a proxy configuration or
with the circuit open, no proxy URL is returned; otherwise
`proxyConfiguration.newUrl` (a platform call, modelled by its result
`newUrl`) either yields a URL or throws, which disables the proxy. -/
def resolveProxyUrl (hasConfig : Bool) (newUrl : Except String String) (s : ProxyState) :
    Option String × ProxyState :=
  if !hasConfig || s.disabled then (none, s)
  else
    match newUrl with
    | Except.ok u => (some u, s)
    | Except.error e => (none, disableProxy (some ("Proxy configuration error: " ++ e)) s)

/-- Embedding of `isProxyAuthError`. -/
def isProxyAuthError (message : Option String) : Bool :=
  match message with
  | none => false
  | some text =>
      containsStr text "UPSTREAM407" ||
        containsStr text "Proxy responded with 597" ||
        (containsCI text "proxy" &&
          (containsStr text "407" || containsStr text "597"))

/-- Every mutation of `proxyState` a run can perform: the explicit
`disableProxy` calls (from 407/597 responses, matching error messages
and proxy-configuration errors), the `proxyState.authFailed = true`
assignments, and `resolveProxyUrl` (whose catch branch calls
`disableProxy`). -/
inductive ProxyOp where
  | disable (reason : Option String)
  | markAuthFailed
  | resolve (hasConfig : Bool) (newUrl : Except String String)

/-- State transition of one proxy operation. -/
def proxyStep (s : ProxyState) : ProxyOp → ProxyState
  | ProxyOp.disable r => disableProxy r s
  | ProxyOp.markAuthFailed => { s with authFailed := true }
  | ProxyOp.resolve c u => (resolveProxyUrl c u s).2

/-- A run's worth of proxy operations. -/
def runProxyOps (s : ProxyState) (ops : List ProxyOp) : ProxyState :=
  ops.foldl proxyStep s

/-- Embedding of the final-fallback guard at the end of the `main`
variant's request handler (main.js lines 885-887):
`if (!anyItems && itemsEnqueued === 0 && !usedApi) await enqueueSitemapFallback(...)`. -/
def isSitemapFallbackTriggered (anyItems : Bool) (itemsEnqueued : Nat) (usedApi : Bool) : Bool :=
  !anyItems && itemsEnqueued == 0 && !usedApi

/-- Embedding of `enqueueSitemapFallback` from `src/src/main.js`: a
once-per-run latch (`sitemapQueued`), then the fetched sitemap URLs
(`fetchSitemapUrls` is a network call, modelled by its result
`sitemapUrls`) are filtered to product URLs, deduplicated and capped at
`MAX_ITEMS * 3`; each survivor is enqueued as a PRODUCT request.
Returns the enqueued request URLs and the new latch value. -/
def enqueueSitemapFallback (maxItems : Nat) (sitemapQueued : Bool)
    (sitemapUrls : List String) : List String × Bool :=
  if sitemapQueued then ([], true)
  else
    ((uniqStrings (sitemapUrls.filter (fun u => containsStr u "/product/"))).take (maxItems * 3),
      true)

/-- The sitemap-derived requests issued by one pass through the end of
the `main` variant's request handler. -/
def sitemapRequestsIssued (maxItems : Nat) (anyItems : Bool) (itemsEnqueued : Nat)
    (usedApi : Bool) (sitemapQueued : Bool) (sitemapUrls : List String) : List String :=
  if isSitemapFallbackTriggered anyItems itemsEnqueued usedApi then
    (enqueueSitemapFallback maxItems sitemapQueued sitemapUrls).1
  else []

def specPassesFilters (cfg : Config) (item : Item) : Prop :=
  (cfg.brand ≠ "" → ∀ b, item.brand = some b → containsCI b cfg.brand = true) ∧
  (∀ p, item.price = some p →
    (∀ mn, cfg.minPrice = some mn → mn ≤ p) ∧ (∀ mx, cfg.maxPrice = some mx → p ≤ mx)) ∧
  (cfg.color ≠ "" → item.colors ≠ [] → ∃ c ∈ item.colors, containsCI c cfg.color = true) ∧
  (cfg.size ≠ "" → item.sizes ≠ [] → ∃ z ∈ item.sizes, containsCI z cfg.size = true)

def emptyState : SaveState := ⟨0, ∅, ∅⟩

def cfgDefault : Config := { maxItems := 20 }

def cfgTwo : Config := { maxItems := 2 }

def cfgMinMax : Config := { maxItems := 20, minPrice := some 50, maxPrice := some 100 }

def cfgMax150 : Config := { maxItems := 20, minPrice := some 50, maxPrice := some 150 }

def itemPrice120 : Item :=
  { title := some "Boot", brand := none, price := some 120, originalPrice := none,
    currency := "CAD", url := some "https://www.brownsshoes.com/en/product/p.html",
    image := none, images := [], colors := [], sizes := [], inStock := true,
    productId := none, description := none }

def rawP1 : RawItem :=
  { title := some "Runner A", url := some "https://www.brownsshoes.com/en/product/a.html",
    productId := some "P100" }

def rawP2 : RawItem :=
  { title := some "Runner B", url := some "https://www.brownsshoes.com/en/product/b.html",
    productId := some "P100" }

def rawOnlyPid : RawItem := { productId := some "123456" }

def rawNoPid : RawItem :=
  { title := some "Loafer", url := some "https://www.brownsshoes.com/en/product/c.html" }

def rawQ1 : RawItem :=
  { title := some "Q1", url := some "https://www.brownsshoes.com/en/product/q1.html" }

def rawQ2 : RawItem :=
  { title := some "Q2", url := some "https://www.brownsshoes.com/en/product/q2.html" }

def rawQ3 : RawItem :=
  { title := some "Q3", url := some "https://www.brownsshoes.com/en/product/q3.html" }

def segDiscount : SegmentData :=
  { url := some "https://www.brownsshoes.com/en/product/x.html", name := some "X",
    price := some "100", retailPrice := some "50" }

def hitSale : Hit :=
  { productName := some "Sale Boot", price := some "80", priceMax := some "120" }

def proxyDownState : ProxyState := ⟨true, some "Proxy authentication failed (407)", true⟩


theorem jsOrNull_ne_empty (o : Option String) : jsOrNull o ≠ some "" := by
  cases o with
  | none => simp [jsOrNull]
  | some s =>
      by_cases h : s = "" <;> simp [jsOrNull, jsTruthyS, h]

theorem startsWithL_cons {s : List Char} {b : Char} {bs : List Char}
    (h : startsWithL s (b :: bs) = true) : ∃ t, s = b :: t := by
  cases s with
  | nil => simp [startsWithL] at h
  | cons a as =>
      simp only [startsWithL, Bool.and_eq_true, beq_iff_eq] at h
      exact ⟨as, by rw [h.1]⟩

theorem base_append_head (x : String) : ∃ t, (BASE_URL ++ x).data = 'h' :: t :=
  ⟨"ttps://www.brownsshoes.com".data ++ x.data, by rw [String.data_append]; rfl⟩

theorem toAbs_head {href abs : String} (h : toAbs href = some abs) :
    ∃ t, abs.data = 'h' :: t := by
  unfold toAbs at h
  split at h
  · rename_i hs
    simp only [hasHttpScheme, Bool.or_eq_true] at hs
    rcases hs with h1 | h1
    · obtain ⟨t, ht⟩ := startsWithL_cons h1
      exact ⟨t, by rw [← Option.some.inj h, ht]⟩
    · obtain ⟨t, ht⟩ := startsWithL_cons h1
      exact ⟨t, by rw [← Option.some.inj h, ht]⟩
  · split at h
    · exact Option.some.inj h ▸ base_append_head href
    · split at h
      · exact Option.some.inj h ▸ base_append_head "/"
      · refine ⟨"ttps://www.brownsshoes.com/".data ++ href.data, ?_⟩
        rw [← Option.some.inj h]
        show (BASE_URL ++ "/" ++ href).data = _
        rw [String.data_append, String.data_append]
        rfl

theorem normalizeProductUrl_ne_empty (u : String) : normalizeProductUrl u ≠ some "" := by
  intro hcontra
  unfold normalizeProductUrl at hcontra
  split at hcontra
  · exact Option.noConfusion hcontra
  · cases habs : toAbs u with
    | none =>
        rw [habs] at hcontra
        exact Option.noConfusion hcontra
    | some abs =>
        rw [habs] at hcontra
        obtain ⟨t, ht⟩ := toAbs_head habs
        simp only [] at hcontra
        split at hcontra
        · have h2 := Option.some.inj hcontra
          have h3 := congrArg String.data h2
          rw [ht] at h3
          simp [stripFromChar, List.takeWhile] at h3
        · have h2 : abs = "" := Option.some.inj hcontra
          rw [h2] at ht
          simp at ht

theorem normalizeItem_url_ne_empty (raw : RawItem) : (normalizeItem raw).url ≠ some "" :=
  jsOrNull_ne_empty raw.url

theorem normalizeItem_productId_ne_empty (raw : RawItem) :
    (normalizeItem raw).productId ≠ some "" :=
  jsOrNull_ne_empty raw.productId

theorem shapeItem_url_ne_empty (sd : Bool) (raw : RawItem) :
    (shapeItem sd raw).url ≠ some "" := by
  unfold shapeItem
  split <;>
    · show (normalizeItem_v2 raw).url ≠ some ""
      unfold normalizeItem_v2
      cases hu : raw.url with
      | none => simp
      | some u =>
          by_cases he : u = ""
          · simp [he]
          · simpa [he] using normalizeProductUrl_ne_empty u

theorem shapeItem_productId_ne_empty (sd : Bool) (raw : RawItem) :
    (shapeItem sd raw).productId ≠ some "" := by
  unfold shapeItem
  split <;> exact jsOrNull_ne_empty raw.productId

theorem mem_condInsert {seen : Finset String} {o : Option String} (hne : o ≠ some "")
    (k : String) :
    (k ∈ (if jsTruthyS o then insertOpt seen o else seen)) ↔ (k ∈ seen ∨ o = some k) := by
  cases o with
  | none => simp [jsTruthyS, insertOpt]
  | some u =>
      have hu : ¬(u = "") := fun h => hne (by rw [h])
      simp only [jsTruthyS, insertOpt, beq_iff_eq, hu, not_false_eq_true, Bool.not_true,
        Bool.not_eq_true', decide_eq_false_iff_not, if_true, Bool.not_false, if_pos]
      rw [if_pos (by simp [hu])]
      simp [insertOpt, Finset.mem_insert, Option.some.injEq]
      constructor
      · rintro (h | h)
        · exact Or.inr h.symm
        · exact Or.inl h
      · rintro (h | h)
        · exact Or.inr h
        · exact Or.inl h.symm

theorem mem_condInsert_of_mem {pids : Finset String} (o : Option String) {p : String}
    (h : p ∈ pids) : p ∈ (if jsTruthyS o then insertOpt pids o else pids) := by
  split
  · cases o with
    | none => exact h
    | some u => exact Finset.mem_insert_of_mem h
  · exact h

theorem saveGo_main_spec (cfg : Config) (base : Nat) :
    ∀ (items : List RawItem) (acc : List Item) (seen pids : Finset String),
      ∃ tail,
        (saveGo_main cfg base items acc seen pids).1 = acc ++ tail ∧
        (∀ k, k ∈ (saveGo_main cfg base items acc seen pids).2.1 ↔
          k ∈ seen ∨ ∃ it ∈ tail, it.url = some k) ∧
        (∀ p, p ∈ (saveGo_main cfg base items acc seen pids).2.2 ↔
          p ∈ pids ∨ ∃ it ∈ tail, it.productId = some p) ∧
        (base + acc.length < cfg.maxItems →
          base + acc.length + tail.length ≤ cfg.maxItems) ∧
        (∀ p, (tail.filter (fun it => decide (it.productId = some p))).length ≤
          if p ∈ pids then 0 else 1) := by
  intro items
  induction items with
  | nil =>
      intro acc seen pids
      refine ⟨[], by simp [saveGo_main], by simp [saveGo_main], by simp [saveGo_main], ?_, ?_⟩
      · intro h
        simp only [saveGo_main, List.length_nil]
        omega
      · intro p
        simp only [List.filter_nil, List.length_nil]
        split <;> omega
  | cons raw rest ih =>
      intro acc seen pids
      by_cases hrej : rejects_main cfg seen pids (normalizeItem raw) = true
      · have hgo : saveGo_main cfg base (raw :: rest) acc seen pids
            = saveGo_main cfg base rest acc seen pids := by
          simp [saveGo_main, hrej]
        rw [hgo]
        exact ih acc seen pids
      · have hrej' : rejects_main cfg seen pids (normalizeItem raw) = false := by
          simpa using hrej
        have hpidfact : ∀ p, (normalizeItem raw).productId = some p → p ∉ pids := by
          intro p hp hmem
          apply hrej
          have hpe : p ≠ "" := fun he =>
            normalizeItem_productId_ne_empty raw (he ▸ hp)
          have hptr : jsTruthyS (some p) = true := by simp [jsTruthyS, hpe]
          simp [rejects_main, hp, hptr, inSet, hmem]
        set item := normalizeItem raw with hitem
        have hne_url : item.url ≠ some "" := normalizeItem_url_ne_empty raw
        have hne_pid : item.productId ≠ some "" := normalizeItem_productId_ne_empty raw
        by_cases hceil : cfg.maxItems ≤ base + (acc ++ [item]).length
        · have hgo : saveGo_main cfg base (raw :: rest) acc seen pids
              = (acc ++ [item],
                 if jsTruthyS item.url then insertOpt seen item.url else seen,
                 if jsTruthyS item.productId then insertOpt pids item.productId else pids) := by
            simp only [saveGo_main, ← hitem, hrej', Bool.false_eq_true, if_false]
            rw [if_pos hceil]
          rw [hgo]
          refine ⟨[item], rfl, ?_, ?_, ?_, ?_⟩
          · intro k
            simpa using mem_condInsert hne_url k
          · intro p
            simpa using mem_condInsert hne_pid p
          · intro hlt
            simp only [List.length_append, List.length_cons, List.length_nil] at hceil ⊢
            omega
          · intro p
            by_cases hp : item.productId = some p
            · have hnp : p ∉ pids := hpidfact p hp
              rw [List.filter_cons_of_pos (by simp [hp]), if_neg hnp]
              simp
            · rw [List.filter_cons_of_neg (by simp [hp])]
              simp only [List.filter_nil, List.length_nil]
              exact Nat.zero_le _
        · have hgo : saveGo_main cfg base (raw :: rest) acc seen pids
              = saveGo_main cfg base rest (acc ++ [item])
                  (if jsTruthyS item.url then insertOpt seen item.url else seen)
                  (if jsTruthyS item.productId then insertOpt pids item.productId else pids) := by
            simp only [saveGo_main, ← hitem, hrej', Bool.false_eq_true, if_false]
            rw [if_neg hceil]
          rw [hgo]
          obtain ⟨tail', h1, h2, h3, h4, h5⟩ :=
            ih (acc ++ [item])
              (if jsTruthyS item.url then insertOpt seen item.url else seen)
              (if jsTruthyS item.productId then insertOpt pids item.productId else pids)
          refine ⟨item :: tail', ?_, ?_, ?_, ?_, ?_⟩
          · rw [h1]
            simp
          · intro k
            rw [h2 k, mem_condInsert hne_url k, List.exists_mem_cons_iff]
            exact or_assoc
          · intro p
            rw [h3 p, mem_condInsert hne_pid p, List.exists_mem_cons_iff]
            exact or_assoc
          · intro hlt
            have hlt2 : base + (acc ++ [item]).length < cfg.maxItems := by omega
            have h4' := h4 hlt2
            simp only [List.length_append, List.length_cons, List.length_nil] at h4' ⊢
            omega
          · intro p
            have h5' := h5 p
            by_cases hp : item.productId = some p
            · have hnp : p ∉ pids := hpidfact p hp
              have hptr : jsTruthyS item.productId = true := by
                rw [hp]
                have hpe : p ≠ "" := fun he => hne_pid (he ▸ hp)
                simp [jsTruthyS, hpe]
              have hmem : p ∈ (if jsTruthyS item.productId
                  then insertOpt pids item.productId else pids) := by
                rw [if_pos hptr, hp]
                exact Finset.mem_insert_self p pids
              rw [if_pos hmem] at h5'
              rw [List.filter_cons_of_pos (by simp [hp]), List.length_cons, if_neg hnp]
              omega
            · rw [List.filter_cons_of_neg (by simp [hp])]
              by_cases hppids : p ∈ pids
              · have hmem := mem_condInsert_of_mem item.productId hppids
                rw [if_pos hmem] at h5'
                rw [if_pos hppids]
                omega
              · rw [if_neg hppids]
                split at h5' <;> first
                  | omega
                  | (split at h5' <;> omega)

theorem jsTruthyS_eq_true {o : Option String} (h : jsTruthyS o = true) :
    ∃ s, o = some s ∧ ¬s = "" := by
  cases o with
  | none => simp [jsTruthyS] at h
  | some s => exact ⟨s, rfl, by simpa [jsTruthyS] using h⟩

theorem mem_insertOpt {seen : Finset String} {o : Option String} {u : String}
    (hu : o = some u) (k : String) :
    (k ∈ insertOpt seen o) ↔ (k ∈ seen ∨ o = some k) := by
  subst hu
  simp only [insertOpt, Finset.mem_insert, Option.some.injEq]
  constructor
  · rintro (h | h)
    · exact Or.inr h.symm
    · exact Or.inl h
  · rintro (h | h)
    · exact Or.inr h
    · exact Or.inl h.symm

theorem saveGo_v2_spec (cfg : Config) (base : Nat) :
    ∀ (items : List RawItem) (acc : List Item) (seen pids : Finset String),
      ∃ tail,
        (saveGo_v2 cfg base items acc seen pids).1 = acc ++ tail ∧
        (∀ k, k ∈ (saveGo_v2 cfg base items acc seen pids).2.1 ↔
          k ∈ seen ∨ ∃ it ∈ tail, it.url = some k) ∧
        (∀ p, p ∈ (saveGo_v2 cfg base items acc seen pids).2.2 ↔
          p ∈ pids ∨ ∃ it ∈ tail, it.productId = some p) ∧
        (base + acc.length < cfg.maxItems →
          base + acc.length + tail.length ≤ cfg.maxItems) ∧
        (∀ it ∈ tail, it.url ≠ none ∧ it.title ≠ none) := by
  intro items
  induction items with
  | nil =>
      intro acc seen pids
      refine ⟨[], by simp [saveGo_v2], by simp [saveGo_v2], by simp [saveGo_v2], ?_, by simp⟩
      intro h
      simp only [saveGo_v2, List.length_nil]
      omega
  | cons raw rest ih =>
      intro acc seen pids
      by_cases hrej : rejects_v2 cfg seen (shapeItem cfg.scrapeDetails raw) = true
      · have hgo : saveGo_v2 cfg base (raw :: rest) acc seen pids
            = saveGo_v2 cfg base rest acc seen pids := by
          simp [saveGo_v2, hrej]
        rw [hgo]
        exact ih acc seen pids
      · have hrej' : rejects_v2 cfg seen (shapeItem cfg.scrapeDetails raw) = false := by
          simpa using hrej
        set item := shapeItem cfg.scrapeDetails raw with hitem
        have hne_pid : item.productId ≠ some "" := shapeItem_productId_ne_empty _ raw
        have hurl_tr : jsTruthyS item.url = true := by
          by_contra hc
          apply hrej
          simp only [rejects_v2, Bool.or_eq_true, Bool.not_eq_true']
          exact Or.inl (Or.inl (Or.inl (by simpa using hc)))
        have htitle_tr : jsTruthyS item.title = true := by
          by_contra hc
          apply hrej
          simp only [rejects_v2, Bool.or_eq_true, Bool.not_eq_true']
          exact Or.inl (Or.inl (Or.inr (by simpa using hc)))
        obtain ⟨u, hu, hune⟩ := jsTruthyS_eq_true hurl_tr
        obtain ⟨tt, htt, htne⟩ := jsTruthyS_eq_true htitle_tr
        by_cases hceil : cfg.maxItems ≤ base + (acc ++ [item]).length
        · have hgo : saveGo_v2 cfg base (raw :: rest) acc seen pids
              = (acc ++ [item],
                 insertOpt seen item.url,
                 if jsTruthyS item.productId then insertOpt pids item.productId else pids) := by
            simp only [saveGo_v2, ← hitem, hrej', Bool.false_eq_true, if_false]
            rw [if_pos hceil]
          rw [hgo]
          refine ⟨[item], rfl, ?_, ?_, ?_, ?_⟩
          · intro k
            simpa using mem_insertOpt hu k
          · intro p
            simpa using mem_condInsert hne_pid p
          · intro hlt
            simp only [List.length_append, List.length_cons, List.length_nil] at hceil ⊢
            omega
          · intro it hit
            rw [List.mem_singleton] at hit
            subst hit
            exact ⟨by rw [hu]; exact Option.noConfusion, by rw [htt]; exact Option.noConfusion⟩
        · have hgo : saveGo_v2 cfg base (raw :: rest) acc seen pids
              = saveGo_v2 cfg base rest (acc ++ [item])
                  (insertOpt seen item.url)
                  (if jsTruthyS item.productId then insertOpt pids item.productId else pids) := by
            simp only [saveGo_v2, ← hitem, hrej', Bool.false_eq_true, if_false]
            rw [if_neg hceil]
          rw [hgo]
          obtain ⟨tail', h1, h2, h3, h4, h6⟩ :=
            ih (acc ++ [item])
              (insertOpt seen item.url)
              (if jsTruthyS item.productId then insertOpt pids item.productId else pids)
          refine ⟨item :: tail', ?_, ?_, ?_, ?_, ?_⟩
          · rw [h1]
            simp
          · intro k
            rw [h2 k, mem_insertOpt hu k, List.exists_mem_cons_iff]
            exact or_assoc
          · intro p
            rw [h3 p, mem_condInsert hne_pid p, List.exists_mem_cons_iff]
            exact or_assoc
          · intro hlt
            have hlt2 : base + (acc ++ [item]).length < cfg.maxItems := by omega
            have h4' := h4 hlt2
            simp only [List.length_append, List.length_cons, List.length_nil] at h4' ⊢
            omega
          · intro it hit
            rw [List.mem_cons] at hit
            rcases hit with hit | hit
            · subst hit
              exact ⟨by rw [hu]; exact Option.noConfusion, by rw [htt]; exact Option.noConfusion⟩
            · exact h6 it hit

theorem saveItems_main_spec (cfg : Config) (s : SaveState) (items : List RawItem) :
    (saveItems_main cfg s items).2.itemsSaved
      = s.itemsSaved + (saveItems_main cfg s items).1.length ∧
    (∀ k, k ∈ (saveItems_main cfg s items).2.seenKeys ↔
      k ∈ s.seenKeys ∨ ∃ it ∈ (saveItems_main cfg s items).1, it.url = some k) ∧
    (∀ p, p ∈ (saveItems_main cfg s items).2.savedProductIds ↔
      p ∈ s.savedProductIds ∨ ∃ it ∈ (saveItems_main cfg s items).1, it.productId = some p) ∧
    (s.itemsSaved ≤ cfg.maxItems → (saveItems_main cfg s items).2.itemsSaved ≤ cfg.maxItems) ∧
    (∀ p, ((saveItems_main cfg s items).1.filter
        (fun it => decide (it.productId = some p))).length ≤
      if p ∈ s.savedProductIds then 0 else 1) := by
  by_cases hc : cfg.maxItems ≤ s.itemsSaved
  · have he : saveItems_main cfg s items = ([], s) := by
      simp [saveItems_main, hc]
    rw [he]
    refine ⟨by simp, by simp, by simp, by intro h; exact h, ?_⟩
    intro p
    simp only [List.filter_nil, List.length_nil]
    split <;> omega
  · obtain ⟨tail, h1, h2, h3, h4, h5⟩ :=
      saveGo_main_spec cfg s.itemsSaved items [] s.seenKeys s.savedProductIds
    rw [List.nil_append] at h1
    have he : saveItems_main cfg s items
        = ((saveGo_main cfg s.itemsSaved items [] s.seenKeys s.savedProductIds).1,
           ⟨s.itemsSaved
              + (saveGo_main cfg s.itemsSaved items [] s.seenKeys s.savedProductIds).1.length,
            (saveGo_main cfg s.itemsSaved items [] s.seenKeys s.savedProductIds).2.1,
            (saveGo_main cfg s.itemsSaved items [] s.seenKeys s.savedProductIds).2.2⟩) := by
      simp [saveItems_main, hc]
    rw [he, h1]
    refine ⟨rfl, ?_, ?_, ?_, ?_⟩
    · intro k
      simpa [h1] using h2 k
    · intro p
      simpa [h1] using h3 p
    · intro h
      have h4' := h4 (by simp; omega)
      simp only [List.length_nil] at h4'
      simp
      omega
    · intro p
      exact h5 p

theorem saveItems_v2_spec (cfg : Config) (s : SaveState) (items : List RawItem) :
    (saveItems_v2 cfg s items).2.itemsSaved
      = s.itemsSaved + (saveItems_v2 cfg s items).1.length ∧
    (∀ k, k ∈ (saveItems_v2 cfg s items).2.seenKeys ↔
      k ∈ s.seenKeys ∨ ∃ it ∈ (saveItems_v2 cfg s items).1, it.url = some k) ∧
    (∀ p, p ∈ (saveItems_v2 cfg s items).2.savedProductIds ↔
      p ∈ s.savedProductIds ∨ ∃ it ∈ (saveItems_v2 cfg s items).1, it.productId = some p) ∧
    (s.itemsSaved ≤ cfg.maxItems → (saveItems_v2 cfg s items).2.itemsSaved ≤ cfg.maxItems) ∧
    (∀ it ∈ (saveItems_v2 cfg s items).1, it.url ≠ none ∧ it.title ≠ none) := by
  by_cases hc : cfg.maxItems ≤ s.itemsSaved
  · have he : saveItems_v2 cfg s items = ([], s) := by
      simp [saveItems_v2, hc]
    rw [he]
    exact ⟨by simp, by simp, by simp, by intro h; exact h, by simp⟩
  · obtain ⟨tail, h1, h2, h3, h4, h6⟩ :=
      saveGo_v2_spec cfg s.itemsSaved items [] s.seenKeys s.savedProductIds
    rw [List.nil_append] at h1
    have he : saveItems_v2 cfg s items
        = ((saveGo_v2 cfg s.itemsSaved items [] s.seenKeys s.savedProductIds).1,
           ⟨s.itemsSaved
              + (saveGo_v2 cfg s.itemsSaved items [] s.seenKeys s.savedProductIds).1.length,
            (saveGo_v2 cfg s.itemsSaved items [] s.seenKeys s.savedProductIds).2.1,
            (saveGo_v2 cfg s.itemsSaved items [] s.seenKeys s.savedProductIds).2.2⟩) := by
      simp [saveItems_v2, hc]
    rw [he, h1]
    refine ⟨rfl, ?_, ?_, ?_, ?_⟩
    · intro k
      simpa [h1] using h2 k
    · intro p
      simpa [h1] using h3 p
    · intro h
      have h4' := h4 (by simp; omega)
      simp only [List.length_nil] at h4'
      simp
      omega
    · intro it hit
      exact h6 it (h1 ▸ hit)

theorem runSave_main_saved_bound (cfg : Config) :
    ∀ (batches : List (List RawItem)) (s : SaveState),
      s.itemsSaved ≤ cfg.maxItems →
      (runSave_main cfg s batches).2.itemsSaved ≤ cfg.maxItems := by
  intro batches
  induction batches with
  | nil =>
      intro s h
      simpa [runSave_main] using h
  | cons b bs ih =>
      intro s h
      simp only [runSave_main]
      exact ih _ ((saveItems_main_spec cfg s b).2.2.2.1 h)

theorem runSave_v2_saved_bound (cfg : Config) :
    ∀ (batches : List (List RawItem)) (s : SaveState),
      s.itemsSaved ≤ cfg.maxItems →
      (runSave_v2 cfg s batches).2.itemsSaved ≤ cfg.maxItems := by
  intro batches
  induction batches with
  | nil =>
      intro s h
      simpa [runSave_v2] using h
  | cons b bs ih =>
      intro s h
      simp only [runSave_v2]
      exact ih _ ((saveItems_v2_spec cfg s b).2.2.2.1 h)

theorem runSave_main_pid_count (cfg : Config) (p : String) :
    ∀ (batches : List (List RawItem)) (s : SaveState),
      ((runSave_main cfg s batches).1.filter
        (fun it => decide (it.productId = some p))).length ≤
        if p ∈ s.savedProductIds then 0 else 1 := by
  intro batches
  induction batches with
  | nil =>
      intro s
      simp only [runSave_main, List.filter_nil, List.length_nil]
      split <;> omega
  | cons b bs ih =>
      intro s
      simp only [runSave_main, List.filter_append, List.length_append]
      have hcall := saveItems_main_spec cfg s b
      have hc1 := hcall.2.2.2.2 p
      have hmem := hcall.2.2.1 p
      have hrest := ih (saveItems_main cfg s b).2
      by_cases hp : p ∈ s.savedProductIds
      · have h0 : ((saveItems_main cfg s b).1.filter
            (fun it => decide (it.productId = some p))).length = 0 := by
          rw [if_pos hp] at hc1
          omega
        have hp' : p ∈ (saveItems_main cfg s b).2.savedProductIds := hmem.mpr (Or.inl hp)
        rw [if_pos hp'] at hrest
        rw [if_pos hp]
        omega
      · rw [if_neg hp] at hc1 ⊢
        by_cases hex : ∃ it ∈ (saveItems_main cfg s b).1, it.productId = some p
        · have hp' : p ∈ (saveItems_main cfg s b).2.savedProductIds := hmem.mpr (Or.inr hex)
          rw [if_pos hp'] at hrest
          omega
        · have h0 : ((saveItems_main cfg s b).1.filter
              (fun it => decide (it.productId = some p))).length = 0 := by
            rw [List.length_eq_zero, List.filter_eq_nil_iff]
            intro it hit
            simp only [decide_eq_true_eq]
            exact fun hcontra => hex ⟨it, hit, hcontra⟩
          by_cases hp' : p ∈ (saveItems_main cfg s b).2.savedProductIds
          · rcases hmem.mp hp' with h | h
            · exact absurd h hp
            · exact absurd h hex
          · rw [if_neg hp'] at hrest
            omega

theorem saveItems_main_nopid_accept (cfg : Config) (s : SaveState) (raw : RawItem) (u : String)
    (hpid : (normalizeItem raw).productId = none)
    (hurl : (normalizeItem raw).url = some u)
    (hfil : passesFilters cfg (normalizeItem raw) = true)
    (hsaved : s.itemsSaved < cfg.maxItems) :
    ((saveItems_main cfg s [raw]).1 ≠ [] ↔ u ∉ s.seenKeys) := by
  have hune : ¬u = "" := by
    intro he
    exact normalizeItem_url_ne_empty raw (he ▸ hurl)
  have hrej : rejects_main cfg s.seenKeys s.savedProductIds (normalizeItem raw)
      = decide (u ∈ s.seenKeys) := by
    have hbe : (u == "") = false := by
      simp [hune]
    simp [rejects_main, hpid, hurl, jsOr, jsTruthyS, inSet, hfil, hbe]
  have hnle : ¬cfg.maxItems ≤ s.itemsSaved := Nat.not_le.mpr hsaved
  by_cases hmem : u ∈ s.seenKeys
  · have hrtrue : rejects_main cfg s.seenKeys s.savedProductIds (normalizeItem raw) = true := by
      rw [hrej]
      simpa using hmem
    simp [saveItems_main, hnle, saveGo_main, hrtrue, hmem]
  · have hrfalse : rejects_main cfg s.seenKeys s.savedProductIds (normalizeItem raw) = false := by
      rw [hrej]
      simpa using hmem
    simp only [saveItems_main, hnle, if_false, saveGo_main, hrfalse, Bool.false_eq_true,
      List.nil_append]
    split <;> simp [hmem]

theorem passesFilters_eq_true_iff (cfg : Config) (item : Item) :
    passesFilters cfg item = true ↔
      brandRejects cfg item = false ∧ minPriceRejects cfg item = false ∧
      maxPriceRejects cfg item = false ∧ colorRejects cfg item = false ∧
      sizeRejects cfg item = false := by
  unfold passesFilters
  split_ifs with h1 h2 h3 h4 h5 <;> simp_all

theorem brandRejects_false_iff (cfg : Config) (item : Item) (hbne : item.brand ≠ some "") :
    brandRejects cfg item = false ↔
      (cfg.brand ≠ "" → ∀ b, item.brand = some b → containsCI b cfg.brand = true) := by
  cases hb : item.brand with
  | none => simp [brandRejects, hb]
  | some b =>
      have hbe : ¬(b = "") := fun h => hbne (by rw [hb, h])
      by_cases hcb : cfg.brand = ""
      · simp [brandRejects, hb, hcb]
      · simp [brandRejects, hb, hcb, hbe]

theorem priceRejects_false_iff (cfg : Config) (item : Item) :
    (minPriceRejects cfg item = false ∧ maxPriceRejects cfg item = false) ↔
      (∀ p, item.price = some p →
        (∀ mn, cfg.minPrice = some mn → mn ≤ p) ∧
        (∀ mx, cfg.maxPrice = some mx → p ≤ mx)) := by
  cases hp : item.price with
  | none => simp [minPriceRejects, maxPriceRejects, hp]
  | some p =>
      cases hmn : cfg.minPrice <;> cases hmx : cfg.maxPrice <;>
        simp [minPriceRejects, maxPriceRejects, hp, hmn, hmx, not_lt]

theorem colorRejects_false_iff (cfg : Config) (item : Item) :
    colorRejects cfg item = false ↔
      (cfg.color ≠ "" → item.colors ≠ [] → ∃ c ∈ item.colors, containsCI c cfg.color = true) := by
  by_cases hc : cfg.color = ""
  · simp [colorRejects, hc]
  · simp only [colorRejects, hc, ne_eq, not_false_eq_true, true_implies]
    by_cases he : item.colors = []
    · simp [he]
    · simp [he, List.any_eq_true, List.isEmpty_iff, Bool.and_eq_false_iff]
      tauto

theorem sizeRejects_false_iff (cfg : Config) (item : Item) :
    sizeRejects cfg item = false ↔
      (cfg.size ≠ "" → item.sizes ≠ [] → ∃ z ∈ item.sizes, containsCI z cfg.size = true) := by
  by_cases hc : cfg.size = ""
  · simp [sizeRejects, hc]
  · simp only [sizeRejects, hc, ne_eq, not_false_eq_true, true_implies]
    by_cases he : item.sizes = []
    · simp [he]
    · simp [he, List.any_eq_true, List.isEmpty_iff, Bool.and_eq_false_iff]
      tauto

theorem apiPagingGo_lt_total (hasHits ceiling : Nat → Bool) (total limit : Nat) :
    ∀ (rem offset pageNum o : Nat),
      o ∈ apiPagingGo hasHits ceiling (some total) limit offset pageNum rem → o < total := by
  intro rem
  induction rem with
  | zero =>
      intro offset pageNum o h
      simp [apiPagingGo] at h
  | succ n ih =>
      intro offset pageNum o h
      simp only [apiPagingGo] at h
      split at h
      · simp at h
      · split at h
        · simp at h
        · rename_i hlt
          rcases List.mem_cons.mp h with h1 | h1
          · omega
          · split at h1
            · exact ih (offset + limit) (pageNum + 1) o h1
            · simp at h1

theorem apiPagingGo_chain (hasHits ceiling : Nat → Bool) (total : Option Nat) (limit : Nat) :
    ∀ (rem offset pageNum : Nat),
      List.Chain (fun a b => b = a + limit) offset
        (apiPagingGo hasHits ceiling total limit offset pageNum rem) := by
  intro rem
  induction rem with
  | zero =>
      intro offset pageNum
      simp [apiPagingGo]
  | succ n ih =>
      intro offset pageNum
      simp only [apiPagingGo]
      split
      · exact List.Chain.nil
      · split
        · split
          · exact List.Chain.nil
          · refine List.Chain.cons rfl ?_
            split
            · exact ih (offset + limit) (pageNum + 1)
            · exact List.Chain.nil
        · refine List.Chain.cons rfl ?_
          split
          · exact ih (offset + limit) (pageNum + 1)
          · exact List.Chain.nil

theorem uniq_foldl_mem (l : List String) :
    ∀ (acc : List String) (x : String),
      x ∈ l.foldl (fun acc v => if acc.contains v then acc else acc ++ [v]) acc →
      x ∈ acc ∨ x ∈ l := by
  induction l with
  | nil =>
      intro acc x h
      exact Or.inl (by simpa using h)
  | cons v vs ih =>
      intro acc x h
      simp only [List.foldl] at h
      rcases ih _ x h with hacc | hvs
      · by_cases hc : acc.contains v
        · rw [if_pos hc] at hacc
          exact Or.inl hacc
        · rw [if_neg hc] at hacc
          rcases List.mem_append.mp hacc with h1 | h1
          · exact Or.inl h1
          · simp at h1
            exact Or.inr (by simp [h1])
      · exact Or.inr (List.mem_cons_of_mem _ hvs)

theorem uniqStrings_mem {l : List String} {x : String} (h : x ∈ uniqStrings l) :
    x ∈ l.filter (fun v => !(v == "")) := by
  rcases uniq_foldl_mem (l.filter (fun v => !(v == ""))) [] x h with h1 | h1
  · simp at h1
  · exact h1

/-- C1: for any sequence of batches offered to the save/dedup routine (either
variant) with an item ceiling `MAX_ITEMS > 0` and a fresh run state, the
cumulative `itemsSaved` never exceeds `MAX_ITEMS`, and if the ceiling is ever
reached the count lands exactly on `MAX_ITEMS` (the boundary batch is
truncated). -/
theorem C1_save_ceiling (cfg : Config) (batches : List (List RawItem)) (s0 : SaveState)
    (hmax : 0 < cfg.maxItems) (hs0 : s0.itemsSaved = 0) :
    (runSave_main cfg s0 batches).2.itemsSaved ≤ cfg.maxItems ∧
    (runSave_v2 cfg s0 batches).2.itemsSaved ≤ cfg.maxItems ∧
    (cfg.maxItems ≤ (runSave_main cfg s0 batches).2.itemsSaved →
      (runSave_main cfg s0 batches).2.itemsSaved = cfg.maxItems) ∧
    (cfg.maxItems ≤ (runSave_v2 cfg s0 batches).2.itemsSaved →
      (runSave_v2 cfg s0 batches).2.itemsSaved = cfg.maxItems) := by
  have h1 := runSave_main_saved_bound cfg batches s0 (by omega)
  have h2 := runSave_v2_saved_bound cfg batches s0 (by omega)
  exact ⟨h1, h2, fun h => le_antisymm h1 h, fun h => le_antisymm h2 h⟩

/-- Witness for C1 at a concrete ceiling of 2 with three acceptable records. -/
theorem C1_save_ceiling_witness :
    0 < cfgTwo.maxItems ∧ emptyState.itemsSaved = 0 ∧
    (runSave_main cfgTwo emptyState [[rawQ1], [rawQ2, rawQ3]]).2.itemsSaved ≤ cfgTwo.maxItems :=
  ⟨by decide, rfl,
    (C1_save_ceiling cfgTwo [[rawQ1], [rawQ2, rawQ3]] emptyState (by decide) rfl).1⟩

/-- C2 counterexample: in the `v2` dedup engine two records sharing the
non-null productId "P100" but differing in url are BOTH accepted, so productId
does not take precedence there; dedup is by url alone. -/
theorem C2_counterexample :
    rawP1.productId = some "P100" ∧ rawP2.productId = some "P100" ∧
    rawP1.url ≠ rawP2.url ∧
    (saveItems_v2 cfgDefault emptyState [rawP1, rawP2]).1.map Item.productId
      = [some "P100", some "P100"] :=
  ⟨rfl, rfl, by decide, by decide⟩

/-- C2 amended: in the `main` variant the identity key is productId when
non-null and url otherwise: over any run, at most one record carrying a given
productId not yet saved is ever accepted, and an otherwise-acceptable
productId-less record is rejected exactly when its url is already in
`seenKeys`. -/
theorem C2_main_dedup_identity (cfg : Config) (s0 : SaveState)
    (batches : List (List RawItem)) (p : String) (hp : p ∉ s0.savedProductIds)
    (s : SaveState) (raw : RawItem) (u : String)
    (hpid : (normalizeItem raw).productId = none)
    (hurl : (normalizeItem raw).url = some u)
    (hfil : passesFilters cfg (normalizeItem raw) = true)
    (hsaved : s.itemsSaved < cfg.maxItems) :
    (((runSave_main cfg s0 batches).1.filter
        (fun it => decide (it.productId = some p))).length ≤ 1) ∧
    ((saveItems_main cfg s [raw]).1 ≠ [] ↔ u ∉ s.seenKeys) := by
  constructor
  · have h := runSave_main_pid_count cfg p batches s0
    rw [if_neg hp] at h
    exact h
  · exact saveItems_main_nopid_accept cfg s raw u hpid hurl hfil hsaved

/-- Witness for C2's amended theorem at concrete inputs. -/
theorem C2_main_dedup_identity_witness :
    (((runSave_main cfgDefault emptyState [[rawP1, rawP2]]).1.filter
        (fun it => decide (it.productId = some "P100"))).length ≤ 1) ∧
    ((saveItems_main cfgDefault emptyState [rawNoPid]).1 ≠ [] ↔
      "https://www.brownsshoes.com/en/product/c.html" ∉ emptyState.seenKeys) :=
  C2_main_dedup_identity cfgDefault emptyState [[rawP1, rawP2]] "P100" (by decide)
    emptyState rawNoPid "https://www.brownsshoes.com/en/product/c.html"
    (by decide) (by decide) (by decide) (by decide)

/-- C3 counterexample: the `v2` data-segment channel copies `retail_price`
into `originalPrice` with no comparison, and the save pipeline persists the
record: an accepted record with `originalPrice = 50 < 100 = price`. -/
theorem C3_counterexample :
    (saveItems_v2 cfgDefault emptyState [segmentToItem segDiscount]).1.map
        (fun it => (it.originalPrice, it.price)) = [(some 50, some 100)] ∧
    (50 : ℚ) < 100 :=
  ⟨by decide, by decide⟩

/-- C3 amended: records produced by the API hit mapping satisfy the invariant
(an originalPrice, when non-null, is strictly greater than the price), and
JSON-LD records always carry a null originalPrice; the `v2` data-segment/tile
channel does not enforce the invariant (see the counterexample). -/
theorem C3_originalPrice_gt_price (hit : Hit) (q : ℚ)
    (h : (mapSearchHit hit).originalPrice = some q) :
    (∃ p, (mapSearchHit hit).price = some p ∧ p < q) ∧
    (∀ pl : JsonLdProduct, (jsonLdToItem pl).originalPrice = none) := by
  constructor
  · have hop : searchHitOriginalPrice hit = some q := h
    unfold searchHitOriginalPrice at hop
    cases hpm : searchHitPriceMax hit with
    | none =>
        rw [hpm] at hop
        exact absurd hop (by simp)
    | some pm =>
        cases hpq : searchHitPrice hit with
        | none =>
            rw [hpm, hpq] at hop
            exact absurd hop (by simp)
        | some p =>
            rw [hpm, hpq] at hop
            have hop' : (if pm ≠ 0 ∧ p ≠ 0 ∧ p < pm then some pm else none) = some q := hop
            by_cases hc : pm ≠ 0 ∧ p ≠ 0 ∧ p < pm
            · rw [if_pos hc] at hop'
              have hq : pm = q := Option.some.inj hop'
              refine ⟨p, ?_, hq ▸ hc.2.2⟩
              show searchHitPrice hit = some p
              exact hpq
            · rw [if_neg hc] at hop'
              exact absurd hop' (by simp)
  · intro pl
    rfl

/-- Witness for C3's amended theorem at a concrete discounted hit. -/
theorem C3_originalPrice_gt_price_witness :
    (mapSearchHit hitSale).originalPrice = some 120 ∧
    (∃ p, (mapSearchHit hitSale).price = some p ∧ p < 120) :=
  ⟨by decide, (C3_originalPrice_gt_price hitSale 120 (by decide)).1⟩

/-- C4 counterexample: the `main` variant's saveItems persists a record whose
url and title are both null (its productId alone is the identity key), so the
url/title acceptance requirement does not hold there. -/
theorem C4_counterexample :
    (saveItems_main cfgDefault emptyState [rawOnlyPid]).1.map (fun it => (it.url, it.title))
      = [(none, none)] := by
  decide

/-- C4 amended: in the `v2` variant every record in the accepted sub-batch has
a non-null url and a non-null title; the `main` variant only requires an
identity key, so a productId-bearing record with null url/title can be
persisted (see the counterexample). -/
theorem C4_v2_url_title (cfg : Config) (s : SaveState) (items : List RawItem) :
    ∀ it ∈ (saveItems_v2 cfg s items).1, it.url ≠ none ∧ it.title ≠ none :=
  (saveItems_v2_spec cfg s items).2.2.2.2

/-- Witness for C4's amended theorem on a concrete accepted record. -/
theorem C4_v2_url_title_witness :
    (shapeItem false rawQ1).url ≠ none ∧ (shapeItem false rawQ1).title ≠ none :=
  C4_v2_url_title cfgDefault emptyState [rawQ1] (shapeItem false rawQ1) (by decide)

/-- C5: the API pagination loop started at offset 0 with limit 20 and reported
total 55 fetches exactly offsets 0, 20, 40 and stops; in general every offset
the loop fetches is strictly below the reported total, and the fetched offsets
advance in steps of exactly `limit` from the start offset. -/
theorem C5_api_paging :
    (apiFetchOffsets (fun _ => true) (fun _ => false) (some 55) 20 50 0 1 = [0, 20, 40]) ∧
    (∀ (hasHits ceiling : Nat → Bool) (total limit rem offset pageNum o : Nat),
      o ∈ apiPagingGo hasHits ceiling (some total) limit offset pageNum rem → o < total) ∧
    (∀ (hasHits ceiling : Nat → Bool) (total : Option Nat) (limit rem offset pageNum : Nat),
      List.Chain (fun a b => b = a + limit) offset
        (apiPagingGo hasHits ceiling total limit offset pageNum rem)) := by
  refine ⟨by decide, ?_, ?_⟩
  · intro hasHits ceiling total limit rem offset pageNum o h
    exact apiPagingGo_lt_total hasHits ceiling total limit rem offset pageNum o h
  · intro hasHits ceiling total limit rem offset pageNum
    exact apiPagingGo_chain hasHits ceiling total limit rem offset pageNum

/-- Witness for C5 at the concrete 55/20 scenario. -/
theorem C5_api_paging_witness :
    20 ∈ apiPagingGo (fun _ => true) (fun _ => false) (some 55) 20 0 1 49 ∧ 20 < 55 :=
  ⟨by decide,
    C5_api_paging.2.1 (fun _ => true) (fun _ => false) 55 20 49 0 1 20 (by decide)⟩

/-- C6: the balanced-brace scanner, as used by the token extractor, is
string-and-escape aware: it returns the whole balanced object even when the
object contains braces and escaped quotes inside string literals, and it
returns null when no balanced object completes before end of input. -/
theorem C6_balanced_brace_scanner :
    (extractJsonAfterTokenRaw
        ("window \"__PRELOADED_STATE__\": \x7b\"a\":\"\x7d\x7b\",\"b\":\x7b\"c\":1\x7d\x7d;rest").data
        ("\"__PRELOADED_STATE__\"").data
      = some ("\x7b\"a\":\"\x7d\x7b\",\"b\":\x7b\"c\":1\x7d\x7d").data) ∧
    (extractJsonAfterTokenRaw
        ("window \"__PRELOADED_STATE__\": \x7b\"a\":\"\\\"\x7d\",\"b\":2\x7d tail").data
        ("\"__PRELOADED_STATE__\"").data
      = some ("\x7b\"a\":\"\\\"\x7d\",\"b\":2\x7d").data) ∧
    (extractJsonAfterTokenRaw
        ("window \"__PRELOADED_STATE__\": \x7b\"a\":\"\x7d\x7b\",\"b\":\x7b\"c\":1\x7d").data
        ("\"__PRELOADED_STATE__\"").data
      = none) :=
  ⟨by decide, by decide, by decide⟩

/-- C7: the filter predicate behaves as specified: a record with price 120 is
rejected under minPrice 50 / maxPrice 100 and accepted under maxPrice 150, and
in general `passesFilters` coincides with the specification predicate
`specPassesFilters` (brand case-insensitive substring match on a present
brand; inclusive price bounds applied only to a known price; color/size
case-insensitive substring match over the extracted set, an empty set passing
and a non-empty set with no match failing). -/
theorem C7_passesFilters_spec :
    (passesFilters cfgMinMax itemPrice120 = false) ∧
    (passesFilters cfgMax150 itemPrice120 = true) ∧
    (∀ cfg item, item.brand ≠ some "" →
      (passesFilters cfg item = true ↔ specPassesFilters cfg item)) := by
  refine ⟨by decide, by decide, ?_⟩
  intro cfg item hbne
  rw [passesFilters_eq_true_iff]
  unfold specPassesFilters
  rw [← brandRejects_false_iff cfg item hbne, ← colorRejects_false_iff cfg item,
    ← sizeRejects_false_iff cfg item, ← priceRejects_false_iff cfg item]
  tauto

/-- Witness for C7's equivalence at the 120-price record. -/
theorem C7_passesFilters_spec_witness :
    passesFilters cfgMax150 itemPrice120 = true ↔ specPassesFilters cfgMax150 itemPrice120 :=
  C7_passesFilters_spec.2.2 cfgMax150 itemPrice120 (by decide)

/-- C8: the proxy circuit breaker is a one-way latch: the first disableProxy
call on a clean state sets `disabled`; once `disabled` is set, no sequence of
in-run proxy operations resets it or changes the recorded reason (first
failure wins), and every subsequent resolveProxyUrl returns no proxy URL. -/
theorem C8_proxy_latch :
    (∀ (s : ProxyState) (r : Option String),
      s.disabled = false → (disableProxy r s).disabled = true) ∧
    (∀ (s : ProxyState) (ops : List ProxyOp), s.disabled = true →
      (runProxyOps s ops).disabled = true ∧
      (runProxyOps s ops).reason = s.reason ∧
      (∀ (c : Bool) (u : Except String String),
        (resolveProxyUrl c u (runProxyOps s ops)).1 = none)) := by
  constructor
  · intro s r h
    simp [disableProxy, h]
  · intro s ops
    induction ops generalizing s with
    | nil =>
        intro h
        refine ⟨h, rfl, ?_⟩
        intro c u
        simp [resolveProxyUrl, runProxyOps, h]
    | cons op rest ih =>
        intro h
        have hrun : runProxyOps s (op :: rest) = runProxyOps (proxyStep s op) rest := rfl
        have hstep : (proxyStep s op).disabled = true ∧ (proxyStep s op).reason = s.reason := by
          cases op with
          | disable r => simp [proxyStep, disableProxy, h]
          | markAuthFailed => simp [proxyStep, h]
          | resolve c u => simp [proxyStep, resolveProxyUrl, h]
        have hrest := ih (proxyStep s op) hstep.1
        rw [hrun]
        exact ⟨hrest.1, hrest.2.1.trans hstep.2, hrest.2.2⟩

/-- Witness for C8 on a concrete open-circuit state and a resolve call. -/
theorem C8_proxy_latch_witness :
    proxyDownState.disabled = true ∧
    (runProxyOps proxyDownState [ProxyOp.resolve true (Except.ok "http://proxy:8000")]).disabled
      = true :=
  ⟨rfl, (C8_proxy_latch.2 proxyDownState [ProxyOp.resolve true (Except.ok "http://proxy:8000")]
    rfl).1⟩

/-- C9 counterexample: the `main` variant does fall back to the sitemap: when
a listing branch produced nothing (no items, nothing enqueued, API unused) it
issues requests derived from sitemap URLs. -/
theorem C9_counterexample :
    sitemapRequestsIssued 20 false 0 false false
        ["https://www.brownsshoes.com/en/product/123.html",
         "https://www.brownsshoes.com/en/about"]
      = ["https://www.brownsshoes.com/en/product/123.html"] := by
  decide

/-- C9 amended: the `v2` variant has no sitemap fallback at all; in the `main`
variant sitemap-derived requests are issued only when the run produced nothing
(`anyItems` false, nothing enqueued, API unused), at most once per run
(`sitemapQueued` latch), and every issued request is a product URL drawn from
the fetched sitemap. -/
theorem C9_sitemap_only_on_empty_branch (maxItems : Nat) (anyItems : Bool)
    (itemsEnqueued : Nat) (usedApi sitemapQueued : Bool) (urls : List String) :
    (anyItems = true ∨ itemsEnqueued ≠ 0 ∨ usedApi = true →
      sitemapRequestsIssued maxItems anyItems itemsEnqueued usedApi sitemapQueued urls = []) ∧
    (sitemapQueued = true →
      sitemapRequestsIssued maxItems anyItems itemsEnqueued usedApi sitemapQueued urls = []) ∧
    (∀ r ∈ sitemapRequestsIssued maxItems anyItems itemsEnqueued usedApi sitemapQueued urls,
      r ∈ urls ∧ containsStr r "/product/" = true) := by
  refine ⟨?_, ?_, ?_⟩
  · intro h
    have htrig : isSitemapFallbackTriggered anyItems itemsEnqueued usedApi = false := by
      rcases h with h | h | h <;> simp [isSitemapFallbackTriggered, h]
    simp [sitemapRequestsIssued, htrig]
  · intro h
    unfold sitemapRequestsIssued
    split
    · simp [enqueueSitemapFallback, h]
    · rfl
  · intro r hr
    unfold sitemapRequestsIssued at hr
    split at hr
    · unfold enqueueSitemapFallback at hr
      split at hr
      · simp at hr
      · have hr2 : r ∈ uniqStrings (urls.filter (fun u => containsStr u "/product/")) :=
          List.mem_of_mem_take hr
        have hr3 := uniqStrings_mem hr2
        have hr4 := List.mem_filter.mp hr3
        have hr5 := List.mem_filter.mp hr4.1
        exact ⟨hr5.1, hr5.2⟩
    · simp at hr

/-- Witness for C9's amended theorem: with items already found, no sitemap
request is issued. -/
theorem C9_sitemap_only_on_empty_branch_witness :
    sitemapRequestsIssued 20 true 0 false false
        ["https://www.brownsshoes.com/en/product/123.html"] = [] :=
  (C9_sitemap_only_on_empty_branch 20 true 0 false false
    ["https://www.brownsshoes.com/en/product/123.html"]).1 (Or.inl rfl)

/-- C10: rejection leaves the dedup state unchanged, in both variants: after
any saveItems call the `itemsSaved` counter grows by exactly the number of
persisted records, and a key is in `seenKeys` / `savedProductIds` afterwards
iff it was there before or belongs to a record of the persisted sub-batch —
so a record rejected now (normalization, key, dedup or filter failure) leaves
no trace and can be accepted later in an acceptable form. -/
theorem C10_reject_leaves_state (cfg : Config) (s : SaveState) (items : List RawItem) :
    ((saveItems_main cfg s items).2.itemsSaved
      = s.itemsSaved + (saveItems_main cfg s items).1.length) ∧
    (∀ k, k ∈ (saveItems_main cfg s items).2.seenKeys ↔
      k ∈ s.seenKeys ∨ ∃ it ∈ (saveItems_main cfg s items).1, it.url = some k) ∧
    (∀ p, p ∈ (saveItems_main cfg s items).2.savedProductIds ↔
      p ∈ s.savedProductIds ∨ ∃ it ∈ (saveItems_main cfg s items).1, it.productId = some p) ∧
    ((saveItems_v2 cfg s items).2.itemsSaved
      = s.itemsSaved + (saveItems_v2 cfg s items).1.length) ∧
    (∀ k, k ∈ (saveItems_v2 cfg s items).2.seenKeys ↔
      k ∈ s.seenKeys ∨ ∃ it ∈ (saveItems_v2 cfg s items).1, it.url = some k) ∧
    (∀ p, p ∈ (saveItems_v2 cfg s items).2.savedProductIds ↔
      p ∈ s.savedProductIds ∨ ∃ it ∈ (saveItems_v2 cfg s items).1, it.productId = some p) := by
  obtain ⟨a1, a2, a3, -, -⟩ := saveItems_main_spec cfg s items
  obtain ⟨b1, b2, b3, -, -⟩ := saveItems_v2_spec cfg s items
  exact ⟨a1, a2, a3, b1, b2, b3⟩

